import Mathlib

/-!
# Cutechess: Chancellor offset tables and the graphical move executor

A shallow embedding of `src/chessboard/chancellor.cpp` and of
`src/graphicschessboarditem.cpp` (`initChessboard`, `initChessPieces`,
`makeMove`), followed by the properties proved about them.

The `int` arithmetic of the `Chancellor` constructor, whose operand is the row stride
of an arbitrary board, is embedded as 32-bit two's-complement arithmetic (`wrapInt32`).
In `makeMove` every `int` operation acts on square indices that were already checked to
lie in `0..63`, so plain `Int` arithmetic is exact there.

The graphics scene is a list of piece items; an item pointer is an index into that
list and every item records its parent square, so `childItems` of a square is the list
of items whose parent it is. Reading `m_squares` outside `0..63` and taking the first of
an empty `sourceItems` have no defined result in C++; `makeMove` returns `none` there.
-/

namespace Cutechess

/-! ## `chancellor.cpp` -/

/-- The offset fields of `ChessPiece` that the `Chancellor` constructor fills in.
The arrays are represented by the prefix that the constructor writes. -/
structure ChessPiece where
  m_hopOffsetCount : Nat
  m_slideOffsetCount : Nat
  m_hopOffsets : List Int
  m_slideOffsets : List Int
deriving DecidableEq, Repr

/-- The value a 32-bit two's-complement `int` holds for the mathematical result `x`:
`x` itself when it lies in `-2^31 .. 2^31 - 1`, and `x` reduced modulo `2^32` into that
range otherwise. -/
def wrapInt32 (x : Int) : Int :=
  (x + 2147483648) % 4294967296 - 2147483648

/-- Unary minus on `int`. -/
def negInt32 (a : Int) : Int := wrapInt32 (-a)

/-- Multiplication on `int`. -/
def mulInt32 (a b : Int) : Int := wrapInt32 (a * b)

/-- Addition on `int`. -/
def addInt32 (a b : Int) : Int := wrapInt32 (a + b)

/-- Subtraction on `int`. -/
def subInt32 (a b : Int) : Int := wrapInt32 (a - b)

/-- `Chancellor::Chancellor`, as a function of the `int` value
`vStep = board->arrayWidth()`. Every operation is the 32-bit `int` operation, in the
order in which C++ parses the expression (`-vStep * 2 - 1` is `((-vStep) * 2) - 1`). -/
def Chancellor (vStep : Int) : ChessPiece :=
  { m_hopOffsetCount := 8
    m_slideOffsetCount := 4
    -- Knight moves
    m_hopOffsets :=
      [ subInt32 (mulInt32 (negInt32 vStep) 2) 1
      , addInt32 (mulInt32 (negInt32 vStep) 2) 1
      , subInt32 (negInt32 vStep) 2
      , addInt32 (negInt32 vStep) 2
      , subInt32 vStep 2
      , addInt32 vStep 2
      , subInt32 (mulInt32 vStep 2) 1
      , addInt32 (mulInt32 vStep 2) 1 ]
    -- Rook moves
    m_slideOffsets := [ negInt32 vStep, -1, 1, vStep ] }

/-- The knight offsets for row stride `w`, as the specification lists them. -/
def knightOffsetSet (w : Int) : Finset Int :=
  {2 * w + 1, 2 * w - 1, -2 * w + 1, -2 * w - 1, w + 2, w - 2, -w + 2, -w - 2}

/-- The rook directions for row stride `w`, as the specification lists them. -/
def rookOffsetSet (w : Int) : Finset Int :=
  {w, -w, 1, -1}

/-! ## `graphicschessboarditem.cpp`: the board squares -/

/-- The two square kinds of `GraphicsChessboardSquareItem`. -/
inductive ChessboardSquareType where
  | LightSquare
  | DarkSquare
deriving DecidableEq, Repr

/-- What `initChessboard` records in a `GraphicsChessboardSquareItem`: its kind (constructor
argument), its index (`setPositionInChessboard`) and its coordinates (`setPos`).
`R` stands for `qreal`; only its multiplication, addition and the conversion from the
integer column and row are used. -/
structure GraphicsChessboardSquareItem (R : Type) where
  type : ChessboardSquareType
  positionInChessboard : Nat
  pos : R × R

/-- The local variables of `initChessboard` together with the `m_squares` array
(an entry is `none` until the loop assigns it). -/
structure InitChessboardState (R : Type) where
  colorToggle : Bool
  row : Nat
  m_squares : List (Option (GraphicsChessboardSquareItem R))

/-- `GraphicsChessboardItem::borderSize = 25`. -/
def borderSize {R : Type} [NatCast R] : R := ((25 : Nat) : R)

/-- The square item an iteration of `initChessboard` creates (lines 86 to 110), from the
toggled `colorToggle`, the current `row` and the loop index `i`: its kind, its index
(`setPositionInChessboard`) and its coordinates (`setPos`). `showBorder` is
`isBorderVisible()` and `squareSize` is `GraphicsChessboardSquareItem::size` (declared
outside the sources at hand). -/
def newSquare {R : Type} [Mul R] [Add R] [NatCast R]
    (showBorder : Bool) (squareSize : R) (colorToggle : Bool) (row i : Nat) :
    GraphicsChessboardSquareItem R :=
  { type :=
      if colorToggle then ChessboardSquareType.LightSquare
      else ChessboardSquareType.DarkSquare
    positionInChessboard := i
    pos :=
      if showBorder then
        (squareSize * ((i % 8 : Nat) : R) + borderSize,
         squareSize * (row : R) + borderSize)
      else
        (squareSize * ((i % 8 : Nat) : R), squareSize * (row : R)) }

/-- One iteration of the `for` loop of `initChessboard`, for loop index `i`. -/
def initChessboardStep {R : Type} [Mul R] [Add R] [NatCast R]
    (showBorder : Bool) (squareSize : R)
    (st : InitChessboardState R) (i : Nat) : InitChessboardState R :=
  let colorToggle := !st.colorToggle
  let square := newSquare showBorder squareSize colorToggle st.row i
  let m_squares := st.m_squares.set i (some square)
  if i > 0 ∧ (i + 1) % 8 = 0 then
    { colorToggle := !colorToggle, row := st.row + 1, m_squares := m_squares }
  else
    { colorToggle := colorToggle, row := st.row, m_squares := m_squares }

/-- `GraphicsChessboardItem::initChessboard`: the contents of `m_squares` after the loop
`for (int i = 0; i < 64; i++)`. -/
def initChessboard {R : Type} [Mul R] [Add R] [NatCast R]
    (showBorder : Bool) (squareSize : R) :
    List (Option (GraphicsChessboardSquareItem R)) :=
  ((List.range 64).foldl (initChessboardStep showBorder squareSize)
    { colorToggle := false, row := 0, m_squares := List.replicate 64 none }).m_squares

/-- The checkerboard square for index `i`, as specified: light iff row plus column is even, index
`i`, placed at column `i % 8` and row `i / 8`. -/
def checkerboardSquare {R : Type} [Mul R] [Add R] [NatCast R]
    (showBorder : Bool) (squareSize : R) (i : Nat) :
    GraphicsChessboardSquareItem R :=
  { type :=
      if (i / 8 + i % 8) % 2 = 0 then ChessboardSquareType.LightSquare
      else ChessboardSquareType.DarkSquare
    positionInChessboard := i
    pos :=
      if showBorder then
        (squareSize * ((i % 8 : Nat) : R) + borderSize,
         squareSize * ((i / 8 : Nat) : R) + borderSize)
      else
        (squareSize * ((i % 8 : Nat) : R), squareSize * ((i / 8 : Nat) : R)) }

/-! ## `graphicschessboarditem.cpp`: pieces and `makeMove` -/

/-- `Chessboard::ChessSide`, the two sides the source names. -/
inductive ChessSide where
  | White
  | Black
deriving DecidableEq, Repr

/-- `ChessPiece::PieceType`, the values the source names. -/
inductive PieceType where
  | PT_None
  | PT_Pawn
  | PT_Knight
  | PT_Bishop
  | PT_Rook
  | PT_Queen
  | PT_King
  | PT_Chancellor
deriving DecidableEq, Repr

/-- Modelled from the spec: `GraphicsChessPiece`, whose class is declared outside the
sources at hand. A piece instance carries its side (`side()`) and its piece type
(`piece()`, replaced in place by `setPiece`); as a `QGraphicsItem` it also has a
visibility flag (`hide()` clears it) and a parent item: `some q` when it is a child of
`m_squares[q]`, `none` after `setParentItem(0)`. -/
structure GraphicsChessPiece where
  side : ChessSide
  piece : PieceType
  visible : Bool
  parent : Option Int
deriving DecidableEq, Repr

/-- The graphics items of the board. An item pointer is an index into this list. -/
abbrev Scene := List GraphicsChessPiece

/-- `m_squares[i]` for the 64-entry array: defined for `0 ≤ i < 64` only. The square
item is identified with its index. -/
def m_squares (i : Int) : Option Int :=
  if 0 ≤ i ∧ i < 64 then some i else none

/-- `QGraphicsItem::childItems()` of square `sq`: the items whose parent is `sq`. -/
def childItems (sc : Scene) (sq : Int) : List Nat :=
  (List.range sc.length).filter fun i =>
    match sc[i]? with
    | some it => decide (it.parent = some sq)
    | none => false

/-- `QGraphicsItem::hide()` on item `it`. -/
def hide (it : Nat) (sc : Scene) : Scene :=
  List.modify (fun x => { x with visible := false }) it sc

/-- `QGraphicsItem::setParentItem(parent)` on item `it`. -/
def setParentItem (it : Nat) (parent : Option Int) (sc : Scene) : Scene :=
  List.modify (fun x => { x with parent := parent }) it sc

/-- Modelled from the spec: `GraphicsChessPiece::setPiece(type)` on item `it` replaces the
piece type in place, keeping side and square. -/
def setPiece (it : Nat) (type : PieceType) (sc : Scene) : Scene :=
  List.modify (fun x => { x with piece := type }) it sc

/-- `ChessMove`: source square, target square and promotion piece type. -/
structure ChessMove where
  sourceSquare : Int
  targetSquare : Int
  promotion : PieceType
deriving DecidableEq, Repr

/-- The index of the square whose children `makeMove` ends up holding in `capturedItems`:
the target square, unless the en passant branch replaces it by `target + 8` (White) or
`target - 8` (Black). `targetEmpty` is `capturedItems.isEmpty()` before that branch. -/
def capturedSquare (targetEmpty : Bool) (piece : PieceType) (side : ChessSide)
    (source target : Int) : Int :=
  if targetEmpty = true ∧ piece = PieceType.PT_Pawn then
    if side = ChessSide.White ∧ target - source ≠ -16 ∧ target - source ≠ -8 then
      target + 8
    else if side = ChessSide.Black ∧ target - source ≠ 16 ∧ target - source ≠ 8 then
      target - 8
    else target
  else target

/-- `GraphicsChessboardItem::makeMove`. The result is `none` when the C++ code reads
`m_squares` outside `0..63` or when `sourceItems` is empty (`Q_ASSERT`, `sourceItems[0]`).
The castling block is compiled out (`#if 0`) and `centerOnParent` does not touch the
modelled state. -/
def makeMove (sc : Scene) (move : ChessMove) : Option Scene :=
  match m_squares move.sourceSquare, m_squares move.targetSquare with
  | some src, some tgt =>
    let sourceItems := childItems sc src
    match sourceItems.head? with
    | none => none
    | some p =>
      match sc[p]? with
      | none => none
      | some piece =>
        -- En passant capture
        match m_squares (capturedSquare (childItems sc tgt).isEmpty piece.piece piece.side
            move.sourceSquare move.targetSquare) with
        | none => none
        | some cap =>
          let capturedItems := childItems sc cap
          -- Promotion
          let sc1 :=
            if move.promotion ≠ PieceType.PT_None then setPiece p move.promotion sc else sc
          -- Hide all items in the target square if there's any
          let sc2 := capturedItems.foldl (fun acc it => setParentItem it none (hide it acc)) sc1
          -- Move all items from the source square to the target square
          some (sourceItems.foldl (fun acc it => setParentItem it (some tgt) acc) sc2)
  | _, _ => none

/-- The state in which `makeMove` leaves item `j`, whose state before the call is `x`:
retyped if it is the promoted piece `p`, hidden and detached if it is one of
`capturedItems`, and finally made a child of the target square if it is one of
`sourceItems`. -/
def itemAfterMove (promotion : PieceType) (tgt : Int) (p : Nat)
    (sourceItems capturedItems : List Nat) (j : Nat) (x : GraphicsChessPiece) :
    GraphicsChessPiece :=
  let x1 := if promotion ≠ PieceType.PT_None ∧ p = j then { x with piece := promotion } else x
  let x2 := if j ∈ capturedItems then { x1 with visible := false, parent := none } else x1
  if j ∈ sourceItems then { x2 with parent := some tgt } else x2

/-- The item `new GraphicsChessPiece(side, type, m_squares[square])`: a visible child of
the given square. -/
def newGraphicsChessPiece (side : ChessSide) (type : PieceType) (square : Int) :
    GraphicsChessPiece :=
  { side := side, piece := type, visible := true, parent := some square }

/-- `GraphicsChessboardItem::initChessPieces`: the list `m_pieces` in `push_back` order.
Sharing the renderer and centring do not touch the modelled state. -/
def initChessPieces : Scene :=
  -- == BLACK PIECES ==
  [ newGraphicsChessPiece ChessSide.Black PieceType.PT_Rook 0
  , newGraphicsChessPiece ChessSide.Black PieceType.PT_Knight 1
  , newGraphicsChessPiece ChessSide.Black PieceType.PT_Bishop 2
  , newGraphicsChessPiece ChessSide.Black PieceType.PT_Queen 3
  , newGraphicsChessPiece ChessSide.Black PieceType.PT_King 4
  , newGraphicsChessPiece ChessSide.Black PieceType.PT_Bishop 5
  , newGraphicsChessPiece ChessSide.Black PieceType.PT_Knight 6
  , newGraphicsChessPiece ChessSide.Black PieceType.PT_Rook 7 ]
  ++ (List.range 8).map (fun i =>
        newGraphicsChessPiece ChessSide.Black PieceType.PT_Pawn (8 + (i : Int)))
  -- == WHITE PIECES ==
  ++ [ newGraphicsChessPiece ChessSide.White PieceType.PT_Rook 56
     , newGraphicsChessPiece ChessSide.White PieceType.PT_Knight 57
     , newGraphicsChessPiece ChessSide.White PieceType.PT_Bishop 58
     , newGraphicsChessPiece ChessSide.White PieceType.PT_Queen 59
     , newGraphicsChessPiece ChessSide.White PieceType.PT_King 60
     , newGraphicsChessPiece ChessSide.White PieceType.PT_Bishop 61
     , newGraphicsChessPiece ChessSide.White PieceType.PT_Knight 62
     , newGraphicsChessPiece ChessSide.White PieceType.PT_Rook 63 ]
  ++ (List.range 8).map (fun i =>
        newGraphicsChessPiece ChessSide.White PieceType.PT_Pawn (48 + (i : Int)))

/-- The start layout of `initChessPieces` with the squares between each king and its
rooks emptied (b1, c1, d1, f1, g1 and b8, c8, d8, f8, g8): the pieces standing there are
taken off the board. -/
def castlingLayout : Scene :=
  initChessPieces.map fun it =>
    if it.parent ∈ [some 1, some 2, some 3, some 5, some 6,
        some 57, some 58, some 59, some 61, some 62]
    then { it with parent := none, visible := false }
    else it

/-- No capture took place between `sc` and `sc'` for a move from square `s`: every item
keeps its visibility, and every item that was not on `s` is exactly as before. -/
def NothingCaptured (sc sc' : Scene) (s : Int) : Prop :=
  ∀ (j : Nat) (x : GraphicsChessPiece), sc[j]? = some x →
    ∃ it : GraphicsChessPiece, sc'[j]? = some it ∧ it.visible = x.visible ∧
      (x.parent ≠ some s → it = x)

/-- The move from square `s` to square `t` was carried out between `sc` and `sc'` with the
children of square `c` captured: the former source items are the children of `t` and keep
their visibility, `s` is empty, every former child of `c` is hidden and attached to no
square, and every item that was neither on `s` nor on `c` is exactly as before. -/
def MovedCapturing (sc sc' : Scene) (s t c : Int) : Prop :=
  childItems sc' t = childItems sc s ∧
  childItems sc' s = [] ∧
  (∀ (j : Nat) (x : GraphicsChessPiece), sc[j]? = some x → x.parent = some s →
    ∃ it : GraphicsChessPiece, sc'[j]? = some it ∧ it.parent = some t ∧
      it.visible = x.visible) ∧
  (∀ j ∈ childItems sc c, ∃ it : GraphicsChessPiece,
    sc'[j]? = some it ∧ it.visible = false ∧ it.parent = none) ∧
  (∀ (j : Nat) (x : GraphicsChessPiece), sc[j]? = some x → x.parent ≠ some s →
    x.parent ≠ some c → sc'[j]? = some x)

/-- A Black pawn about to capture en passant, on d4 (35). -/
def blackEnPassantPawn : GraphicsChessPiece :=
  newGraphicsChessPiece ChessSide.Black PieceType.PT_Pawn 35

/-- The Black pawn on d4 (35) beside a White pawn on c4 (34); c3 (42) is empty. -/
def blackEnPassantPosition : Scene :=
  [ blackEnPassantPawn
  , newGraphicsChessPiece ChessSide.White PieceType.PT_Pawn 34 ]

/-- A knight on g1 (62) about to capture a pawn on f3 (45). -/
def knightTakesPawn : Scene :=
  [ newGraphicsChessPiece ChessSide.White PieceType.PT_Knight 62
  , newGraphicsChessPiece ChessSide.Black PieceType.PT_Pawn 45 ]

/-- A White pawn on e5 (28) beside a Black pawn on d5 (27); d6 (19) is empty. -/
def enPassantPosition : Scene :=
  [ newGraphicsChessPiece ChessSide.White PieceType.PT_Pawn 28
  , newGraphicsChessPiece ChessSide.Black PieceType.PT_Pawn 27 ]

/-- A White pawn on b7 (9) with a Black rook on a8 (0). -/
def promotionPosition : Scene :=
  [ newGraphicsChessPiece ChessSide.White PieceType.PT_Pawn 9
  , newGraphicsChessPiece ChessSide.Black PieceType.PT_Rook 0 ]

/-- A lone White pawn on c7 (10). -/
def lonePawn : Scene :=
  [ newGraphicsChessPiece ChessSide.White PieceType.PT_Pawn 10 ]

/-- A lone Black pawn on c2 (50). -/
def loneBlackPawn : Scene :=
  [ newGraphicsChessPiece ChessSide.Black PieceType.PT_Pawn 50 ]

/-- The piece type and side of the items standing on square `sq`. -/
def piecesOn (sc : Scene) (sq : Int) : List (ChessSide × PieceType) :=
  (childItems sc sq).filterMap fun i => (sc[i]?).map fun it => (it.side, it.piece)

/-! ## Theorems: Chancellor -/

theorem wrapInt32_eq_self (x : Int) (h : -2147483648 ≤ x ∧ x < 2147483648) :
    wrapInt32 x = x := by
  unfold wrapInt32
  omega

/-- For a row stride within `±(2^30 - 1)` no `int` operation of the constructor overflows:
the tables hold the exact values of the expressions in the source. -/
theorem chancellor_tables_of_no_overflow (w : Int)
    (hw : -1073741823 ≤ w ∧ w ≤ 1073741823) :
    (Chancellor w).m_hopOffsets =
      [-w * 2 - 1, -w * 2 + 1, -w - 2, -w + 2, w - 2, w + 2, w * 2 - 1, w * 2 + 1] ∧
    (Chancellor w).m_slideOffsets = [-w, -1, 1, w] := by
  have hneg : negInt32 w = -w := wrapInt32_eq_self _ (by omega)
  have hmul : mulInt32 w 2 = w * 2 := wrapInt32_eq_self _ (by omega)
  have hmuln : mulInt32 (-w) 2 = -w * 2 := wrapInt32_eq_self _ (by omega)
  have h0 : subInt32 (-w * 2) 1 = -w * 2 - 1 := wrapInt32_eq_self _ (by omega)
  have h1 : addInt32 (-w * 2) 1 = -w * 2 + 1 := wrapInt32_eq_self _ (by omega)
  have h2 : subInt32 (-w) 2 = -w - 2 := wrapInt32_eq_self _ (by omega)
  have h3 : addInt32 (-w) 2 = -w + 2 := wrapInt32_eq_self _ (by omega)
  have h4 : subInt32 w 2 = w - 2 := wrapInt32_eq_self _ (by omega)
  have h5 : addInt32 w 2 = w + 2 := wrapInt32_eq_self _ (by omega)
  have h6 : subInt32 (w * 2) 1 = w * 2 - 1 := wrapInt32_eq_self _ (by omega)
  have h7 : addInt32 (w * 2) 1 = w * 2 + 1 := wrapInt32_eq_self _ (by omega)
  unfold Chancellor
  simp only [hneg, hmul, hmuln, h0, h1, h2, h3, h4, h5, h6, h7, and_self]

/-- C1 (as stated) fails: at the `int` row stride `2^30` the constructor's arithmetic
overflows. The table then holds `2^31 - 1` in slots 0 and 6 and `-2^31 + 1` in slots 1 and
7, while the knight offset `2 * w + 1 = 2^31 + 1` is in no slot, so the hop offsets are not
the knight set. -/
theorem chancellor_offsets_overflow_at_large_stride :
    (Chancellor 1073741824).m_hopOffsets =
      [2147483647, -2147483647, -1073741826, -1073741822, 1073741822, 1073741826,
        2147483647, -2147483647] ∧
    (2 * 1073741824 + 1 : Int) ∈ knightOffsetSet 1073741824 ∧
    (2 * 1073741824 + 1 : Int) ∉ (Chancellor 1073741824).m_hopOffsets.toFinset ∧
    (Chancellor 1073741824).m_hopOffsets.toFinset ≠ knightOffsetSet 1073741824 := by
  have h1 : (Chancellor 1073741824).m_hopOffsets =
      [2147483647, -2147483647, -1073741826, -1073741822, 1073741822, 1073741826,
        2147483647, -2147483647] := by decide
  have h2 : (2 * 1073741824 + 1 : Int) ∈ knightOffsetSet 1073741824 := by
    simp [knightOffsetSet]
  have h3 : (2 * 1073741824 + 1 : Int) ∉ (Chancellor 1073741824).m_hopOffsets.toFinset := by
    rw [h1]
    decide
  refine ⟨h1, h2, h3, ?_⟩
  intro h
  rw [h] at h3
  exact h3 h2

/-- C1 (amended): for every row stride `w` with `-(2^30 - 1) ≤ w ≤ 2^30 - 1`, the range in
which the constructor's `int` arithmetic does not overflow, a Chancellor has exactly 8 hop
offsets and 4 slide offsets, its hop offsets form the knight set and its slide offsets form
the rook set. -/
theorem chancellor_offsets_are_knight_and_rook (w : Int)
    (hw : -1073741823 ≤ w ∧ w ≤ 1073741823) :
    (Chancellor w).m_hopOffsetCount = 8 ∧
    (Chancellor w).m_hopOffsets.length = 8 ∧
    (Chancellor w).m_slideOffsetCount = 4 ∧
    (Chancellor w).m_slideOffsets.length = 4 ∧
    (Chancellor w).m_hopOffsets.toFinset = knightOffsetSet w ∧
    (Chancellor w).m_slideOffsets.toFinset = rookOffsetSet w := by
  obtain ⟨hhop, hslide⟩ := chancellor_tables_of_no_overflow w hw
  refine ⟨rfl, rfl, rfl, rfl, ?_, ?_⟩
  · rw [hhop]
    ext x
    simp only [knightOffsetSet, List.mem_toFinset, List.mem_cons,
      List.mem_singleton, List.not_mem_nil, or_false, Finset.mem_insert, Finset.mem_singleton]
    constructor
    · rintro (h | h | h | h | h | h | h | h) <;> omega
    · rintro (h | h | h | h | h | h | h | h) <;> omega
  · rw [hslide]
    ext x
    simp only [rookOffsetSet, List.mem_toFinset, List.mem_cons,
      List.mem_singleton, List.not_mem_nil, or_false, Finset.mem_insert, Finset.mem_singleton]
    constructor
    · rintro (h | h | h | h) <;> omega
    · rintro (h | h | h | h) <;> omega

theorem chancellor_offsets_are_knight_and_rook_witness :
    ((-1073741823 : Int) ≤ 10 ∧ (10 : Int) ≤ 1073741823) ∧
    (Chancellor 10).m_hopOffsetCount = 8 ∧
    (Chancellor 10).m_hopOffsets.length = 8 ∧
    (Chancellor 10).m_slideOffsetCount = 4 ∧
    (Chancellor 10).m_slideOffsets.length = 4 ∧
    (Chancellor 10).m_hopOffsets.toFinset = knightOffsetSet 10 ∧
    (Chancellor 10).m_slideOffsets.toFinset = rookOffsetSet 10 :=
  ⟨by decide, chancellor_offsets_are_knight_and_rook 10 (by decide)⟩

/-- C8 (as stated) fails at both ends. At the positive row widths 1, 2 and 3 two hop
offsets coincide, and at widths 1 and 3 a hop offset is also a slide offset. At the `int`
width `2^30` the arithmetic overflows and slots 0 and 6 both hold `2^31 - 1`. -/
theorem chancellor_offsets_collide_for_narrow_rows :
    ¬ (Chancellor 1).m_hopOffsets.Nodup ∧
    ¬ (Chancellor 2).m_hopOffsets.Nodup ∧
    ¬ (Chancellor 3).m_hopOffsets.Nodup ∧
    (Chancellor 3).m_hopOffsets[1]? = some (-5) ∧
    (Chancellor 3).m_hopOffsets[2]? = some (-5) ∧
    (1 : Int) ∈ (Chancellor 3).m_hopOffsets ∧
    (1 : Int) ∈ (Chancellor 3).m_slideOffsets ∧
    (0 : Int) < 1073741824 ∧
    (Chancellor 1073741824).m_hopOffsets[0]? = some 2147483647 ∧
    (Chancellor 1073741824).m_hopOffsets[6]? = some 2147483647 ∧
    ¬ (Chancellor 1073741824).m_hopOffsets.Nodup := by
  decide

/-- C8 (amended): for every row width `w` with `4 ≤ w ≤ 2^30 - 1` (wide enough for the
offsets to differ, and small enough for the constructor's `int` arithmetic not to
overflow) the eight hop offsets are pairwise distinct and no hop offset equals a slide
offset. -/
theorem chancellor_offsets_distinct (w : Int) (hw : 4 ≤ w ∧ w ≤ 1073741823) :
    (Chancellor w).m_hopOffsets.Nodup ∧
    ∀ h ∈ (Chancellor w).m_hopOffsets, h ∉ (Chancellor w).m_slideOffsets := by
  obtain ⟨hhop, hslide⟩ := chancellor_tables_of_no_overflow w (by omega)
  rw [hhop, hslide]
  constructor
  · simp only [List.nodup_cons, List.mem_cons, List.mem_singleton,
      List.not_mem_nil, or_false, not_or, List.nodup_nil, and_true, not_false_eq_true]
    omega
  · intro h hh
    simp only [List.mem_cons, List.mem_singleton, List.not_mem_nil,
      or_false] at hh ⊢
    omega

theorem chancellor_offsets_distinct_witness :
    ((4 : Int) ≤ 10 ∧ (10 : Int) ≤ 1073741823) ∧
    (Chancellor 10).m_hopOffsets.Nodup ∧
    ∀ h ∈ (Chancellor 10).m_hopOffsets, h ∉ (Chancellor 10).m_slideOffsets :=
  ⟨by decide, chancellor_offsets_distinct 10 (by decide)⟩

/-! ## Lemmas on the scene operations -/

theorem getElem?_hide (it j : Nat) (sc : Scene) :
    (hide it sc)[j]? =
      (sc[j]?).map (fun x => if it = j then { x with visible := false } else x) := by
  simp [hide, List.getElem?_modify]

theorem getElem?_setParentItem (it j : Nat) (p : Option Int) (sc : Scene) :
    (setParentItem it p sc)[j]? =
      (sc[j]?).map (fun x => if it = j then { x with parent := p } else x) := by
  simp [setParentItem, List.getElem?_modify]

theorem getElem?_setPiece (it j : Nat) (ty : PieceType) (sc : Scene) :
    (setPiece it ty sc)[j]? =
      (sc[j]?).map (fun x => if it = j then { x with piece := ty } else x) := by
  simp [setPiece, List.getElem?_modify]

theorem getElem?_foldl_setParentItem (L : List Nat) (p : Option Int) (sc : Scene) (j : Nat) :
    (L.foldl (fun acc it => setParentItem it p acc) sc)[j]? =
      (sc[j]?).map (fun x => if j ∈ L then { x with parent := p } else x) := by
  induction L generalizing sc with
  | nil => simp
  | cons a L ih =>
    rw [List.foldl_cons, ih, getElem?_setParentItem]
    cases sc[j]? with
    | none => rfl
    | some x =>
      simp only [Option.map_some', List.mem_cons]
      have h3 : (j = a) = (a = j) := propext eq_comm
      by_cases h1 : a = j <;> by_cases h2 : j ∈ L <;> simp [h3, h1, h2]

theorem getElem?_foldl_capture (L : List Nat) (sc : Scene) (j : Nat) :
    (L.foldl (fun acc it => setParentItem it none (hide it acc)) sc)[j]? =
      (sc[j]?).map (fun x => if j ∈ L then { x with visible := false, parent := none } else x) := by
  induction L generalizing sc with
  | nil => simp
  | cons a L ih =>
    rw [List.foldl_cons, ih, getElem?_setParentItem, getElem?_hide]
    cases sc[j]? with
    | none => rfl
    | some x =>
      simp only [Option.map_some', List.mem_cons]
      have h3 : (j = a) = (a = j) := propext eq_comm
      by_cases h1 : a = j <;> by_cases h2 : j ∈ L <;> simp [h3, h1, h2]

theorem mem_childItems (sc : Scene) (sq : Int) (j : Nat) :
    j ∈ childItems sc sq ↔ ∃ it, sc[j]? = some it ∧ it.parent = some sq := by
  unfold childItems
  rw [List.mem_filter, List.mem_range]
  constructor
  · rintro ⟨hj, h⟩
    rw [List.getElem?_eq_getElem hj] at h
    exact ⟨sc[j], List.getElem?_eq_getElem hj, by simpa using h⟩
  · rintro ⟨it, h, hp⟩
    have hj : j < sc.length := by
      by_contra hc
      rw [List.getElem?_eq_none (by omega)] at h
      exact absurd h (by simp)
    exact ⟨hj, by simp [h, hp]⟩

theorem m_squares_eq_some {i : Int} (h : 0 ≤ i ∧ i < 64) : m_squares i = some i := by
  simp [m_squares, h]

theorem childItems_congr (sc sc' : Scene) (q q' : Int)
    (hlen : sc'.length = sc.length)
    (h : ∀ j : Nat, (∃ it : GraphicsChessPiece, sc'[j]? = some it ∧ it.parent = some q') ↔
      (∃ it : GraphicsChessPiece, sc[j]? = some it ∧ it.parent = some q)) :
    childItems sc' q' = childItems sc q := by
  have hmem : ∀ j, j ∈ childItems sc' q' ↔ j ∈ childItems sc q := by
    intro j
    rw [mem_childItems, mem_childItems]
    exact h j
  unfold childItems at hmem ⊢
  rw [hlen] at hmem ⊢
  apply List.filter_congr
  intro j hj
  have := hmem j
  simp only [List.mem_filter, hj, true_and] at this
  cases h1 : (match sc'[j]? with
    | some it => decide (it.parent = some q')
    | none => false) <;>
  cases h2 : (match sc[j]? with
    | some it => decide (it.parent = some q)
    | none => false) <;> simp_all

theorem childItems_eq_nil (sc : Scene) (q : Int)
    (h : ∀ (j : Nat) (it : GraphicsChessPiece), sc[j]? = some it → it.parent ≠ some q) :
    childItems sc q = [] := by
  rw [List.eq_nil_iff_forall_not_mem]
  intro j hj
  obtain ⟨it, h1, h2⟩ := (mem_childItems sc q j).1 hj
  exact h j it h1 h2

theorem length_of_getElem?_map (sc sc' : Scene) (f : Nat → GraphicsChessPiece → GraphicsChessPiece)
    (h : ∀ j, sc'[j]? = (sc[j]?).map (f j)) : sc'.length = sc.length := by
  apply Nat.le_antisymm
  · by_contra hc
    have h1 := h sc.length
    rw [List.getElem?_eq_none (Nat.le_refl _), List.getElem?_eq_getElem (by omega)] at h1
    simp at h1
  · by_contra hc
    have h1 := h sc'.length
    rw [List.getElem?_eq_none (Nat.le_refl _), List.getElem?_eq_getElem (by omega)] at h1
    simp at h1

theorem m_squares_eq_none {i : Int} (h : ¬ (0 ≤ i ∧ i < 64)) : m_squares i = none := by
  simp only [m_squares, if_neg h]

/-- When the square read for the capture lies outside `0..63`, `makeMove` has no result. -/
theorem makeMove_eq_none_of_capture_outside (sc : Scene) (s t : Int) (promo : PieceType)
    (p : Nat) (rest : List Nat) (piece : GraphicsChessPiece)
    (hsrc : childItems sc s = p :: rest) (hp : sc[p]? = some piece)
    (hcap : ¬ (0 ≤ capturedSquare (childItems sc t).isEmpty piece.piece piece.side s t ∧
      capturedSquare (childItems sc t).isEmpty piece.piece piece.side s t < 64)) :
    makeMove sc ⟨s, t, promo⟩ = none := by
  unfold makeMove
  by_cases hs : 0 ≤ s ∧ s < 64
  · by_cases ht : 0 ≤ t ∧ t < 64
    · simp only [m_squares_eq_some hs, m_squares_eq_some ht, hsrc, List.head?_cons, hp,
        m_squares_eq_none hcap]
    · simp only [m_squares_eq_some hs, m_squares_eq_none ht]
  · simp only [m_squares_eq_none hs]

/-- The effect of `makeMove`, item by item, whenever every square it reads exists and the
source square is occupied. -/
theorem makeMove_spec (sc : Scene) (s t : Int) (promo : PieceType) (p : Nat)
    (rest : List Nat) (piece : GraphicsChessPiece)
    (hs : 0 ≤ s ∧ s < 64) (ht : 0 ≤ t ∧ t < 64)
    (hsrc : childItems sc s = p :: rest) (hp : sc[p]? = some piece)
    (hcap : 0 ≤ capturedSquare (childItems sc t).isEmpty piece.piece piece.side s t ∧
      capturedSquare (childItems sc t).isEmpty piece.piece piece.side s t < 64) :
    ∃ sc', makeMove sc ⟨s, t, promo⟩ = some sc' ∧ sc'.length = sc.length ∧
      ∀ j, sc'[j]? = (sc[j]?).map (itemAfterMove promo t p (childItems sc s)
        (childItems sc (capturedSquare (childItems sc t).isEmpty piece.piece piece.side s t)) j) := by
  have hget : ∀ j, ((childItems sc s).foldl (fun acc it => setParentItem it (some t) acc)
      ((childItems sc (capturedSquare (childItems sc t).isEmpty piece.piece piece.side s t)).foldl
        (fun acc it => setParentItem it none (hide it acc))
        (if promo ≠ PieceType.PT_None then setPiece p promo sc else sc)))[j]? =
      (sc[j]?).map (itemAfterMove promo t p (childItems sc s)
        (childItems sc (capturedSquare (childItems sc t).isEmpty piece.piece piece.side s t)) j) := by
    intro j
    rw [getElem?_foldl_setParentItem, getElem?_foldl_capture]
    by_cases hpr : promo = PieceType.PT_None
    · rw [if_neg (not_not.mpr hpr)]
      rcases sc[j]? with _ | x
      · rfl
      · simp [itemAfterMove, hpr]
    · rw [if_pos hpr, getElem?_setPiece]
      rcases sc[j]? with _ | x
      · rfl
      · by_cases hpj : p = j <;> simp [itemAfterMove, hpr, hpj]
  refine ⟨_, ?_, length_of_getElem?_map _ _ _ hget, hget⟩
  simp only [makeMove, m_squares_eq_some hs, m_squares_eq_some ht, hsrc, List.head?_cons, hp,
    m_squares_eq_some hcap]

theorem mem_childItems_of_getElem? (sc : Scene) (q : Int) (j : Nat) (x : GraphicsChessPiece)
    (hx : sc[j]? = some x) : j ∈ childItems sc q ↔ x.parent = some q := by
  rw [mem_childItems]
  constructor
  · rintro ⟨it, h1, h2⟩
    rw [hx] at h1
    cases h1
    exact h2
  · intro h
    exact ⟨x, hx, h⟩

theorem capturedSquare_of_occupied (pt : PieceType) (sd : ChessSide) (s t : Int) :
    capturedSquare false pt sd s t = t := by
  simp [capturedSquare]

theorem capturedSquare_ne_source (e : Bool) (pt : PieceType) (sd : ChessSide) (s t : Int)
    (hne : s ≠ t) : capturedSquare e pt sd s t ≠ s := by
  unfold capturedSquare
  split_ifs <;> omega

theorem isEmpty_childItems_eq_false (sc : Scene) (q : Int) (j : Nat)
    (h : j ∈ childItems sc q) : (childItems sc q).isEmpty = false := by
  cases hc : childItems sc q with
  | nil => rw [hc] at h; cases h
  | cons a l => rfl

theorem itemAfterMove_parent (promo : PieceType) (t : Int) (p : Nat) (S C : List Nat)
    (j : Nat) (x : GraphicsChessPiece) :
    (itemAfterMove promo t p S C j x).parent =
      if j ∈ S then some t else if j ∈ C then none else x.parent := by
  unfold itemAfterMove
  split_ifs <;> rfl

theorem itemAfterMove_visible (promo : PieceType) (t : Int) (p : Nat) (S C : List Nat)
    (j : Nat) (x : GraphicsChessPiece) :
    (itemAfterMove promo t p S C j x).visible = if j ∈ C then false else x.visible := by
  unfold itemAfterMove
  split_ifs <;> rfl

theorem itemAfterMove_side (promo : PieceType) (t : Int) (p : Nat) (S C : List Nat)
    (j : Nat) (x : GraphicsChessPiece) :
    (itemAfterMove promo t p S C j x).side = x.side := by
  unfold itemAfterMove
  split_ifs <;> rfl

theorem itemAfterMove_piece (promo : PieceType) (t : Int) (p : Nat) (S C : List Nat)
    (j : Nat) (x : GraphicsChessPiece) :
    (itemAfterMove promo t p S C j x).piece =
      if promo ≠ PieceType.PT_None ∧ p = j then promo else x.piece := by
  unfold itemAfterMove
  split_ifs <;> rfl

theorem itemAfterMove_untouched (promo : PieceType) (t : Int) (p : Nat) (S C : List Nat)
    (j : Nat) (x : GraphicsChessPiece) (hS : j ∉ S) (hC : j ∉ C) (hp : p ≠ j) :
    itemAfterMove promo t p S C j x = x := by
  unfold itemAfterMove
  simp [hS, hC, hp]

/-- What `makeMove` does when source and target differ: with `cap` the square whose
children are captured, the source items move to the target, the source square and the
children of `cap` are cleared, and every other item is left alone. -/
theorem makeMove_effect (sc : Scene) (s t : Int) (promo : PieceType) (p : Nat)
    (rest : List Nat) (piece : GraphicsChessPiece) (cap : Int)
    (hs : 0 ≤ s ∧ s < 64) (ht : 0 ≤ t ∧ t < 64) (hne : s ≠ t)
    (hsrc : childItems sc s = p :: rest) (hp : sc[p]? = some piece)
    (hcapeq : capturedSquare (childItems sc t).isEmpty piece.piece piece.side s t = cap)
    (hcap : 0 ≤ cap ∧ cap < 64) :
    ∃ sc', makeMove sc ⟨s, t, promo⟩ = some sc' ∧
      childItems sc' t = childItems sc s ∧
      childItems sc' s = [] ∧
      (∀ j ∈ childItems sc cap, ∃ it : GraphicsChessPiece,
        sc'[j]? = some it ∧ it.visible = false ∧ it.parent = none) ∧
      (cap ≠ t → childItems sc' cap = []) ∧
      (∀ (j : Nat) (x : GraphicsChessPiece), sc[j]? = some x → x.parent ≠ some s →
        x.parent ≠ some cap → sc'[j]? = some x) ∧
      (∀ (j : Nat) (x : GraphicsChessPiece), sc[j]? = some x → x.parent = some s →
        ∃ it : GraphicsChessPiece, sc'[j]? = some it ∧ it.parent = some t ∧
          it.visible = x.visible ∧ it.side = x.side) := by
  subst hcapeq
  obtain ⟨sc', hmk, hlen, hget⟩ := makeMove_spec sc s t promo p rest piece hs ht hsrc hp hcap
  have hcs := capturedSquare_ne_source (childItems sc t).isEmpty piece.piece piece.side s t hne
  generalize hc : capturedSquare (childItems sc t).isEmpty piece.piece piece.side s t = cap
    at hget hcs hcap
  have hocc : ∀ j : Nat, j ∈ childItems sc t → cap = t := by
    intro j hmem
    rw [isEmpty_childItems_eq_false sc t j hmem, capturedSquare_of_occupied] at hc
    exact hc.symm
  have key : ∀ (j : Nat) (x : GraphicsChessPiece), sc[j]? = some x →
      sc'[j]? = some (itemAfterMove promo t p (childItems sc s) (childItems sc cap) j x) := by
    intro j x hx
    rw [hget, hx]
    rfl
  -- the parent of item `j` after the move
  have hpar : ∀ (j : Nat) (x : GraphicsChessPiece), sc[j]? = some x →
      ∀ q : Int, (itemAfterMove promo t p (childItems sc s) (childItems sc cap) j x).parent
        = some q ↔ (j ∈ childItems sc s ∧ q = t) ∨
          (j ∉ childItems sc s ∧ j ∉ childItems sc cap ∧ x.parent = some q) := by
    intro j x _ q
    rw [itemAfterMove_parent]
    by_cases hS : j ∈ childItems sc s
    · simp [hS, eq_comm]
    · by_cases hC : j ∈ childItems sc cap <;> simp [hS, hC]
  have hdisj : ∀ j : Nat, j ∈ childItems sc s → j ∉ childItems sc cap := by
    intro j hS hC
    obtain ⟨x, hx, h1⟩ := (mem_childItems sc s j).1 hS
    obtain ⟨y, hy, h2⟩ := (mem_childItems sc cap j).1 hC
    rw [hx] at hy
    cases hy
    rw [h1] at h2
    exact hcs (Option.some.inj h2).symm
  refine ⟨sc', hmk, ?_, ?_, ?_, ?_, ?_, ?_⟩
  · apply childItems_congr _ _ _ _ hlen
    intro j
    rcases hx : sc[j]? with _ | x
    · rw [hget, hx]
      simp
    · rw [key j x hx]
      simp only [Option.some.injEq, exists_eq_left']
      rw [hpar j x hx t, ← mem_childItems_of_getElem? sc s j x hx]
      constructor
      · rintro (⟨h, _⟩ | ⟨_, hC, h⟩)
        · exact h
        · exfalso
          have hm : j ∈ childItems sc t := (mem_childItems_of_getElem? sc t j x hx).2 h
          rw [hocc j hm] at hC
          exact hC hm
      · intro h
        exact Or.inl ⟨h, rfl⟩
  · apply childItems_eq_nil
    intro j it hit
    rcases hx : sc[j]? with _ | x
    · rw [hget, hx] at hit
      cases hit
    · rw [key j x hx] at hit
      cases hit
      rw [Ne, hpar j x hx s]
      rintro (⟨_, h⟩ | ⟨hS, _, h⟩)
      · exact hne h
      · exact hS ((mem_childItems_of_getElem? sc s j x hx).2 h)
  · intro j hj
    obtain ⟨x, hx, _⟩ := (mem_childItems sc cap j).1 hj
    have hS : j ∉ childItems sc s := fun h => hdisj j h hj
    refine ⟨_, key j x hx, ?_, ?_⟩
    · rw [itemAfterMove_visible, if_pos hj]
    · rw [itemAfterMove_parent, if_neg hS, if_pos hj]
  · intro hct
    apply childItems_eq_nil
    intro j it hit
    rcases hx : sc[j]? with _ | x
    · rw [hget, hx] at hit
      cases hit
    · rw [key j x hx] at hit
      cases hit
      rw [Ne, hpar j x hx cap]
      rintro (⟨_, h⟩ | ⟨_, hC, h⟩)
      · exact hct h
      · exact hC ((mem_childItems_of_getElem? sc cap j x hx).2 h)
  · intro j x hx hps hpc
    rw [key j x hx]
    have hS : j ∉ childItems sc s := fun h => hps ((mem_childItems_of_getElem? sc s j x hx).1 h)
    have hC : j ∉ childItems sc cap :=
      fun h => hpc ((mem_childItems_of_getElem? sc cap j x hx).1 h)
    have hpj : p ≠ j := by
      intro h
      subst h
      exact hS (by rw [hsrc]; exact List.mem_cons_self _ _)
    rw [itemAfterMove_untouched promo t p _ _ j x hS hC hpj]
  · intro j x hx hps
    have hS : j ∈ childItems sc s := (mem_childItems_of_getElem? sc s j x hx).2 hps
    refine ⟨_, key j x hx, ?_, ?_, ?_⟩
    · rw [itemAfterMove_parent, if_pos hS]
    · rw [itemAfterMove_visible, if_neg (hdisj j hS)]
    · rw [itemAfterMove_side]

/-- The loop invariant of `initChessboard` before iteration `n`: the toggle records the
parity of the previous square, `row` is `n / 8`, and the first `n` entries of `m_squares`
are the checkerboard squares. -/
theorem initChessboard_invariant {R : Type} [Mul R] [Add R] [NatCast R]
    (showBorder : Bool) (squareSize : R) (n : Nat) (hn : n ≤ 64) :
    (((List.range n).foldl (initChessboardStep showBorder squareSize)
        { colorToggle := false, row := 0, m_squares := List.replicate 64 none }).colorToggle
        = true ↔ (n / 8 + n % 8) % 2 = 1) ∧
    ((List.range n).foldl (initChessboardStep showBorder squareSize)
        { colorToggle := false, row := 0, m_squares := List.replicate 64 none }).row = n / 8 ∧
    ((List.range n).foldl (initChessboardStep showBorder squareSize)
        { colorToggle := false, row := 0, m_squares := List.replicate 64 none }).m_squares.length
        = 64 ∧
    ∀ j : Nat, j < n →
      ((List.range n).foldl (initChessboardStep showBorder squareSize)
        { colorToggle := false, row := 0, m_squares := List.replicate 64 none }).m_squares[j]?
        = some (some (checkerboardSquare showBorder squareSize j)) := by
  induction n with
  | zero => simp
  | succ n ih =>
    obtain ⟨hc, hr, hl, hsq⟩ := ih (by omega)
    rw [List.range_succ, List.foldl_append, List.foldl_cons, List.foldl_nil]
    generalize (List.range n).foldl (initChessboardStep showBorder squareSize)
      { colorToggle := false, row := 0, m_squares := List.replicate 64 none } = st
      at hc hr hl hsq
    have hpar : (st.colorToggle = true ∧ (n / 8 + n % 8) % 2 = 1) ∨
        (st.colorToggle = false ∧ (n / 8 + n % 8) % 2 = 0) := by
      by_cases h : st.colorToggle = true
      · exact Or.inl ⟨h, hc.1 h⟩
      · have h4 : ¬ (n / 8 + n % 8) % 2 = 1 := fun h3 => h (hc.2 h3)
        exact Or.inr ⟨by simpa using h, by omega⟩
    have hsquare : newSquare showBorder squareSize (!st.colorToggle) st.row n =
        checkerboardSquare showBorder squareSize n := by
      unfold checkerboardSquare newSquare
      rw [hr]
      congr 1
      rcases hpar with ⟨h, h2⟩ | ⟨h, h2⟩
      · have h3 : ¬ (n / 8 + n % 8) % 2 = 0 := by omega
        simp [h, h3]
      · simp [h, h2]
    have hset : ∀ j : Nat, j < n + 1 →
        (st.m_squares.set n
          (some (newSquare showBorder squareSize (!st.colorToggle) st.row n)))[j]?
          = some (some (checkerboardSquare showBorder squareSize j)) := by
      intro j hj
      rw [hsquare]
      by_cases hjn : j = n
      · subst hjn
        rw [List.getElem?_set_self (by omega)]
      · rw [List.getElem?_set_ne (fun h => hjn h.symm)]
        exact hsq j (by omega)
    unfold initChessboardStep
    by_cases hrow : n > 0 ∧ (n + 1) % 8 = 0
    · simp only [if_pos hrow]
      refine ⟨?_, ?_, ?_, hset⟩
      · rcases hpar with ⟨h, h2⟩ | ⟨h, h2⟩
        · simp only [h, Bool.not_true, Bool.not_false, true_iff]
          omega
        · simp only [h, Bool.not_false, Bool.not_true, Bool.false_eq_true, false_iff]
          omega
      · rw [hr]
        omega
      · rw [List.length_set]
        exact hl
    · simp only [if_neg hrow]
      refine ⟨?_, ?_, ?_, hset⟩
      · rcases hpar with ⟨h, h2⟩ | ⟨h, h2⟩
        · simp only [h, Bool.not_true, Bool.false_eq_true, false_iff]
          omega
        · simp only [h, Bool.not_false, true_iff]
          omega
      · rw [hr]
        omega
      · rw [List.length_set]
        exact hl

/-! ## Theorems: `initChessboard` -/

/-- C10: `initChessboard` lays out a checkerboard. For every `i` in `0..63`, square `i` is
light iff `i / 8 + i % 8` is even (dark otherwise), its position in the chessboard is `i`,
and it is placed at column `i % 8` and row `i / 8`, shifted by `borderSize` when the border
is visible; its right-hand neighbour in the same row and the square below it have the
other colour. -/
theorem initChessboard_checkerboard {R : Type} [Mul R] [Add R] [NatCast R]
    (showBorder : Bool) (squareSize : R) (i : Nat) (hi : i < 64) :
    ∃ sq : GraphicsChessboardSquareItem R,
      (initChessboard showBorder squareSize)[i]? = some (some sq) ∧
      (sq.type = ChessboardSquareType.LightSquare ↔ (i / 8 + i % 8) % 2 = 0) ∧
      (sq.type = ChessboardSquareType.DarkSquare ↔ (i / 8 + i % 8) % 2 = 1) ∧
      sq.positionInChessboard = i ∧
      sq.pos =
        (if showBorder then
          (squareSize * ((i % 8 : Nat) : R) + borderSize,
           squareSize * ((i / 8 : Nat) : R) + borderSize)
        else
          (squareSize * ((i % 8 : Nat) : R), squareSize * ((i / 8 : Nat) : R))) ∧
      ∀ (j : Nat) (sq' : GraphicsChessboardSquareItem R),
        (initChessboard showBorder squareSize)[j]? = some (some sq') →
        ((j = i + 1 ∧ j / 8 = i / 8) ∨ j = i + 8) → sq'.type ≠ sq.type := by
  obtain ⟨_, _, hlen0, hsq0⟩ :=
    initChessboard_invariant showBorder squareSize 64 (Nat.le_refl _)
  have hlen : (initChessboard showBorder squareSize).length = 64 := hlen0
  have hsq : ∀ j : Nat, j < 64 → (initChessboard showBorder squareSize)[j]? =
      some (some (checkerboardSquare showBorder squareSize j)) := hsq0
  have htype : ∀ k : Nat,
      ((checkerboardSquare showBorder squareSize k).type = ChessboardSquareType.LightSquare ↔
        (k / 8 + k % 8) % 2 = 0) ∧
      ((checkerboardSquare showBorder squareSize k).type = ChessboardSquareType.DarkSquare ↔
        (k / 8 + k % 8) % 2 = 1) := by
    intro k
    unfold checkerboardSquare
    by_cases h : (k / 8 + k % 8) % 2 = 0
    · simp [h]
    · have h1 : (k / 8 + k % 8) % 2 = 1 := by omega
      simp [h1]
  refine ⟨checkerboardSquare showBorder squareSize i, hsq i hi, (htype i).1, (htype i).2,
    rfl, rfl, ?_⟩
  intro j sq' hj hadj hsame
  have hj64 : j < 64 := by
    by_contra hc
    have hnone : (initChessboard showBorder squareSize)[j]? = none :=
      List.getElem?_eq_none (by omega)
    rw [hnone] at hj
    cases hj
  have hj' := hsq j hj64
  rw [hj] at hj'
  have hsq' : sq' = checkerboardSquare showBorder squareSize j := by
    simpa using hj'
  rw [hsq'] at hsame
  have hflip : (j / 8 + j % 8) % 2 ≠ (i / 8 + i % 8) % 2 := by
    rcases hadj with ⟨h3, h4⟩ | h3
    · have : j % 8 = i % 8 + 1 := by omega
      omega
    · have : j / 8 = i / 8 + 1 := by omega
      have : j % 8 = i % 8 := by omega
      omega
  by_cases h : (i / 8 + i % 8) % 2 = 0
  · have h1 := (htype i).1.2 h
    rw [h1] at hsame
    have h2 := (htype j).1.1 hsame
    omega
  · have h0 : (i / 8 + i % 8) % 2 = 1 := by omega
    have h1 := (htype i).2.2 h0
    rw [h1] at hsame
    have h2 := (htype j).2.1 hsame
    omega

theorem initChessboard_checkerboard_witness :
    (63 : Nat) < 64 ∧
    ∃ sq : GraphicsChessboardSquareItem Int,
      (initChessboard true (50 : Int))[63]? = some (some sq) ∧
      (sq.type = ChessboardSquareType.LightSquare ↔ (63 / 8 + 63 % 8) % 2 = 0) ∧
      (sq.type = ChessboardSquareType.DarkSquare ↔ (63 / 8 + 63 % 8) % 2 = 1) ∧
      sq.positionInChessboard = 63 ∧
      sq.pos =
        (if true then
          ((50 : Int) * ((63 % 8 : Nat) : Int) + borderSize,
           (50 : Int) * ((63 / 8 : Nat) : Int) + borderSize)
        else
          ((50 : Int) * ((63 % 8 : Nat) : Int), (50 : Int) * ((63 / 8 : Nat) : Int))) ∧
      ∀ (j : Nat) (sq' : GraphicsChessboardSquareItem Int),
        (initChessboard true (50 : Int))[j]? = some (some sq') →
        ((j = 63 + 1 ∧ j / 8 = 63 / 8) ∨ j = 63 + 8) → sq'.type ≠ sq.type :=
  ⟨by decide, initChessboard_checkerboard true (50 : Int) 63 (by decide)⟩

/-! ## Theorems: `makeMove` -/

/-- C3 (as stated) fails: a White pawn on c7 (10) sent to the empty square e1 (60) makes the
en passant branch read `m_squares[68]`, outside the 64 squares, so the call has no
result although the source is occupied and differs from the target. -/
theorem makeMove_reads_outside_board :
    childItems lonePawn 10 = [0] ∧ (10 : Int) ≠ 60 ∧
    capturedSquare (childItems lonePawn 60).isEmpty PieceType.PT_Pawn ChessSide.White 10 60
      = 68 ∧
    makeMove lonePawn ⟨10, 60, PieceType.PT_None⟩ = none := by
  decide

/-- C3 (amended): for every board state and every move between two different squares of
the board whose source square is non-empty, and for which the square read for the capture
(the target, or the en passant square) lies in `0..63`, `makeMove` returns a board in which
the target square holds exactly the former source items, the source square is empty, and
every item formerly on the target square is hidden and attached to no square. -/
theorem makeMove_relocates_and_captures (sc : Scene) (s t : Int) (promo : PieceType)
    (p : Nat) (rest : List Nat) (piece : GraphicsChessPiece)
    (hs : 0 ≤ s ∧ s < 64) (ht : 0 ≤ t ∧ t < 64) (hne : s ≠ t)
    (hsrc : childItems sc s = p :: rest) (hp : sc[p]? = some piece)
    (hcap : 0 ≤ capturedSquare (childItems sc t).isEmpty piece.piece piece.side s t ∧
      capturedSquare (childItems sc t).isEmpty piece.piece piece.side s t < 64) :
    ∃ sc', makeMove sc ⟨s, t, promo⟩ = some sc' ∧
      childItems sc' t = childItems sc s ∧
      childItems sc' s = [] ∧
      ∀ j ∈ childItems sc t, ∃ it : GraphicsChessPiece,
        sc'[j]? = some it ∧ it.visible = false ∧ it.parent = none := by
  obtain ⟨sc', hmk, h1, h2, h3, _, _, _⟩ :=
    makeMove_effect sc s t promo p rest piece _ hs ht hne hsrc hp rfl hcap
  refine ⟨sc', hmk, h1, h2, ?_⟩
  intro j hj
  apply h3
  rw [isEmpty_childItems_eq_false sc t j hj, capturedSquare_of_occupied]
  exact hj

theorem makeMove_relocates_and_captures_witness :
    ((0 : Int) ≤ 62 ∧ (62 : Int) < 64) ∧ ((0 : Int) ≤ 45 ∧ (45 : Int) < 64) ∧
    (62 : Int) ≠ 45 ∧ childItems knightTakesPawn 62 = [0] ∧
    ∃ sc', makeMove knightTakesPawn ⟨62, 45, PieceType.PT_None⟩ = some sc' ∧
      childItems sc' 45 = childItems knightTakesPawn 62 ∧
      childItems sc' 62 = [] ∧
      ∀ j ∈ childItems knightTakesPawn 45, ∃ it : GraphicsChessPiece,
        sc'[j]? = some it ∧ it.visible = false ∧ it.parent = none :=
  ⟨by decide, by decide, by decide, by decide,
    makeMove_relocates_and_captures knightTakesPawn 62 45 PieceType.PT_None 0 []
      (newGraphicsChessPiece ChessSide.White PieceType.PT_Knight 62)
      (by decide) (by decide) (by decide) (by decide) (by decide) (by decide)⟩

/-- C4: en passant execution. When a pawn standing first on square `s` moves diagonally
(`t - s` is `-7` or `-9` for White, `7` or `9` for Black) to an empty square `t` of the
board while an enemy pawn stands on the board square `S` (`t + 8` for White, `t - 8` for
Black), `makeMove` hides and detaches everything on `S`, leaves `S` and `s` empty and puts
the former source items on `t`. -/
theorem makeMove_en_passant (sc : Scene) (s t S : Int) (promo : PieceType)
    (p : Nat) (rest : List Nat) (piece : GraphicsChessPiece)
    (e : Nat) (enemy : GraphicsChessPiece)
    (hs : 0 ≤ s ∧ s < 64) (ht : 0 ≤ t ∧ t < 64) (hS : 0 ≤ S ∧ S < 64)
    (hsrc : childItems sc s = p :: rest) (hp : sc[p]? = some piece)
    (hpawn : piece.piece = PieceType.PT_Pawn)
    (hdiag : (piece.side = ChessSide.White ∧ (t - s = -7 ∨ t - s = -9) ∧ S = t + 8) ∨
      (piece.side = ChessSide.Black ∧ (t - s = 7 ∨ t - s = 9) ∧ S = t - 8))
    (hempty : childItems sc t = [])
    (he : e ∈ childItems sc S) (_henemy : sc[e]? = some enemy)
    (_hepawn : enemy.piece = PieceType.PT_Pawn) (_heside : enemy.side ≠ piece.side) :
    ∃ sc', makeMove sc ⟨s, t, promo⟩ = some sc' ∧
      (∃ it : GraphicsChessPiece, sc'[e]? = some it ∧ it.visible = false ∧ it.parent = none) ∧
      (∀ j ∈ childItems sc S, ∃ it : GraphicsChessPiece,
        sc'[j]? = some it ∧ it.visible = false ∧ it.parent = none) ∧
      childItems sc' S = [] ∧
      childItems sc' t = childItems sc s ∧
      childItems sc' s = [] := by
  have hcapeq : capturedSquare (childItems sc t).isEmpty piece.piece piece.side s t = S := by
    rw [hempty, hpawn]
    unfold capturedSquare
    rcases hdiag with ⟨hw, hd, hSeq⟩ | ⟨hb, hd, hSeq⟩
    · rw [hw, hSeq]
      have h1 : t - s ≠ -16 ∧ t - s ≠ -8 := by omega
      simp [h1]
    · rw [hb, hSeq]
      have h1 : t - s ≠ 16 ∧ t - s ≠ 8 := by omega
      simp [h1]
  have hne : s ≠ t := by
    rcases hdiag with ⟨_, hd, _⟩ | ⟨_, hd, _⟩ <;> omega
  have hSt : S ≠ t := by
    rcases hdiag with ⟨_, _, hSeq⟩ | ⟨_, _, hSeq⟩ <;> omega
  obtain ⟨sc', hmk, h1, h2, h3, h4, _, _⟩ :=
    makeMove_effect sc s t promo p rest piece S hs ht hne hsrc hp hcapeq hS
  exact ⟨sc', hmk, h3 e he, h3, h4 hSt, h1, h2⟩

theorem makeMove_en_passant_witness :
    childItems enPassantPosition 28 = [0] ∧ childItems enPassantPosition 19 = [] ∧
    (1 : Nat) ∈ childItems enPassantPosition 27 ∧
    ∃ sc', makeMove enPassantPosition ⟨28, 19, PieceType.PT_None⟩ = some sc' ∧
      (∃ it : GraphicsChessPiece, sc'[1]? = some it ∧ it.visible = false ∧ it.parent = none) ∧
      (∀ j ∈ childItems enPassantPosition 27, ∃ it : GraphicsChessPiece,
        sc'[j]? = some it ∧ it.visible = false ∧ it.parent = none) ∧
      childItems sc' 27 = [] ∧
      childItems sc' 19 = childItems enPassantPosition 28 ∧
      childItems sc' 28 = [] :=
  ⟨by decide, by decide, by decide,
    makeMove_en_passant enPassantPosition 28 19 27 PieceType.PT_None 0 []
      (newGraphicsChessPiece ChessSide.White PieceType.PT_Pawn 28) 1
      (newGraphicsChessPiece ChessSide.Black PieceType.PT_Pawn 27)
      (by decide) (by decide) (by decide) (by decide) (by decide) (by decide) (by decide)
      (by decide) (by decide) (by decide) (by decide) (by decide)⟩

/-- C5: location of the en passant victim. For squares `s`, `t` in `0..63` whose columns
differ by exactly one and with the row of `t` one less (White) or one more (Black) than the
row of `s`, the square `makeMove` reads the captured pawn from is `t + 8` (White) or
`t - 8` (Black); it lies in `0..63`, on the row of `s` and in the column of `t`, so it is
the square horizontally adjacent to the source. -/
theorem en_passant_victim_square (side : ChessSide) (s t : Int)
    (hs : 0 ≤ s ∧ s < 64) (ht : 0 ≤ t ∧ t < 64)
    (hcol : t % 8 - s % 8 = 1 ∨ s % 8 - t % 8 = 1)
    (hrow : (side = ChessSide.White ∧ t / 8 = s / 8 - 1) ∨
      (side = ChessSide.Black ∧ t / 8 = s / 8 + 1)) :
    (capturedSquare true PieceType.PT_Pawn side s t =
      if side = ChessSide.White then t + 8 else t - 8) ∧
    0 ≤ capturedSquare true PieceType.PT_Pawn side s t ∧
    capturedSquare true PieceType.PT_Pawn side s t < 64 ∧
    capturedSquare true PieceType.PT_Pawn side s t / 8 = s / 8 ∧
    capturedSquare true PieceType.PT_Pawn side s t % 8 = t % 8 ∧
    (capturedSquare true PieceType.PT_Pawn side s t = s + 1 ∨
      capturedSquare true PieceType.PT_Pawn side s t = s - 1) := by
  rcases hrow with ⟨hw, hr⟩ | ⟨hb, hr⟩
  · have h1 : t - s ≠ -16 ∧ t - s ≠ -8 := by omega
    have hcs : capturedSquare true PieceType.PT_Pawn side s t = t + 8 := by
      simp [capturedSquare, hw, h1]
    rw [hcs, hw]
    simp only [if_true]
    have e1 : (t + 8) / 8 = t / 8 + 1 := by omega
    have e2 : (t + 8) % 8 = t % 8 := by omega
    have e3 : t + 8 = 8 * (s / 8) + t % 8 := by omega
    refine ⟨trivial, ?_, ?_, ?_, ?_, ?_⟩ <;> omega
  · have h1 : t - s ≠ 16 ∧ t - s ≠ 8 := by omega
    have hcs : capturedSquare true PieceType.PT_Pawn side s t = t - 8 := by
      simp [capturedSquare, hb, h1]
    rw [hcs, hb]
    simp only [if_neg (by decide : ¬ ChessSide.Black = ChessSide.White)]
    have e1 : (t - 8) / 8 = t / 8 - 1 := by omega
    have e2 : (t - 8) % 8 = t % 8 := by omega
    have e3 : t - 8 = 8 * (s / 8) + t % 8 := by omega
    refine ⟨trivial, ?_, ?_, ?_, ?_, ?_⟩ <;> omega

theorem en_passant_victim_square_witness :
    (capturedSquare true PieceType.PT_Pawn ChessSide.White 28 19 =
      if ChessSide.White = ChessSide.White then (19 : Int) + 8 else 19 - 8) ∧
    0 ≤ capturedSquare true PieceType.PT_Pawn ChessSide.White 28 19 ∧
    capturedSquare true PieceType.PT_Pawn ChessSide.White 28 19 < 64 ∧
    capturedSquare true PieceType.PT_Pawn ChessSide.White 28 19 / 8 = 28 / 8 ∧
    capturedSquare true PieceType.PT_Pawn ChessSide.White 28 19 % 8 = 19 % 8 ∧
    (capturedSquare true PieceType.PT_Pawn ChessSide.White 28 19 = 28 + 1 ∨
      capturedSquare true PieceType.PT_Pawn ChessSide.White 28 19 = 28 - 1) :=
  en_passant_victim_square ChessSide.White 28 19 (by decide) (by decide) (by decide)
    (by decide)

/-- C6 (as stated) fails: a Black pawn on c2 (50) sent to the empty square d8 (3) with
promotion to a queen makes the en passant branch read `m_squares[-5]`, so the call has no
result and no promoted piece stands on the target. -/
theorem promotion_move_reads_outside_board :
    childItems loneBlackPawn 50 = [0] ∧
    PieceType.PT_Queen ≠ PieceType.PT_None ∧
    capturedSquare (childItems loneBlackPawn 3).isEmpty PieceType.PT_Pawn ChessSide.Black 50 3
      = -5 ∧
    makeMove loneBlackPawn ⟨50, 3, PieceType.PT_Queen⟩ = none := by
  decide

/-- C6 (amended): for every move on the board whose source square is non-empty and for
which the square read for the capture lies in `0..63`, `makeMove` returns a board in which
the moved piece (the first item of the source square) stands on the target square with
its side unchanged; its piece type is the promotion type `P` when `P` is not `PT_None`, and
is unchanged when `P` is `PT_None`. -/
theorem makeMove_promotion (sc : Scene) (s t : Int) (promo : PieceType)
    (p : Nat) (rest : List Nat) (piece : GraphicsChessPiece)
    (hs : 0 ≤ s ∧ s < 64) (ht : 0 ≤ t ∧ t < 64)
    (hsrc : childItems sc s = p :: rest) (hp : sc[p]? = some piece)
    (hcap : 0 ≤ capturedSquare (childItems sc t).isEmpty piece.piece piece.side s t ∧
      capturedSquare (childItems sc t).isEmpty piece.piece piece.side s t < 64) :
    ∃ (sc' : Scene) (it : GraphicsChessPiece),
      makeMove sc ⟨s, t, promo⟩ = some sc' ∧
      sc'[p]? = some it ∧ p ∈ childItems sc' t ∧ it.parent = some t ∧
      it.side = piece.side ∧
      (promo ≠ PieceType.PT_None → it.piece = promo) ∧
      (promo = PieceType.PT_None → it.piece = piece.piece) := by
  obtain ⟨sc', hmk, _, hget⟩ := makeMove_spec sc s t promo p rest piece hs ht hsrc hp hcap
  have hmem : p ∈ childItems sc s := by
    rw [hsrc]
    exact List.mem_cons_self _ _
  have hit : sc'[p]? = some (itemAfterMove promo t p (childItems sc s)
      (childItems sc (capturedSquare (childItems sc t).isEmpty piece.piece piece.side s t))
      p piece) := by
    rw [hget, hp]
    rfl
  have hpar : (itemAfterMove promo t p (childItems sc s)
      (childItems sc (capturedSquare (childItems sc t).isEmpty piece.piece piece.side s t))
      p piece).parent = some t := by
    rw [itemAfterMove_parent, if_pos hmem]
  refine ⟨sc', _, hmk, hit, (mem_childItems sc' t p).2 ⟨_, hit, hpar⟩, hpar, ?_, ?_, ?_⟩
  · rw [itemAfterMove_side]
  · intro h
    rw [itemAfterMove_piece, if_pos ⟨h, rfl⟩]
  · intro h
    rw [itemAfterMove_piece, if_neg (fun hc => hc.1 h)]

theorem makeMove_promotion_witness :
    childItems promotionPosition 9 = [0] ∧
    ∃ (sc' : Scene) (it : GraphicsChessPiece),
      makeMove promotionPosition ⟨9, 0, PieceType.PT_Queen⟩ = some sc' ∧
      sc'[0]? = some it ∧ 0 ∈ childItems sc' 0 ∧ it.parent = some 0 ∧
      it.side = (newGraphicsChessPiece ChessSide.White PieceType.PT_Pawn 9).side ∧
      (PieceType.PT_Queen ≠ PieceType.PT_None → it.piece = PieceType.PT_Queen) ∧
      (PieceType.PT_Queen = PieceType.PT_None →
        it.piece = (newGraphicsChessPiece ChessSide.White PieceType.PT_Pawn 9).piece) :=
  ⟨by decide,
    makeMove_promotion promotionPosition 9 0 PieceType.PT_Queen 0 []
      (newGraphicsChessPiece ChessSide.White PieceType.PT_Pawn 9)
      (by decide) (by decide) (by decide) (by decide) (by decide)⟩

/-- When the capture square is the (empty) target itself, `makeMove` carries out the move
and captures nothing. -/
theorem makeMove_nothing_captured (sc : Scene) (s t : Int) (promo : PieceType)
    (p : Nat) (rest : List Nat) (piece : GraphicsChessPiece)
    (hs : 0 ≤ s ∧ s < 64) (ht : 0 ≤ t ∧ t < 64)
    (hsrc : childItems sc s = p :: rest) (hp : sc[p]? = some piece)
    (hempty : childItems sc t = [])
    (hcapeq : capturedSquare (childItems sc t).isEmpty piece.piece piece.side s t = t) :
    ∃ sc', makeMove sc ⟨s, t, promo⟩ = some sc' ∧
      childItems sc' t = childItems sc s ∧ childItems sc' s = [] ∧
      NothingCaptured sc sc' s := by
  have hne : s ≠ t := by
    intro h
    rw [h, hempty] at hsrc
    cases hsrc
  obtain ⟨sc', hmk, h1, h2, _, _, h5, h6⟩ :=
    makeMove_effect sc s t promo p rest piece t hs ht hne hsrc hp hcapeq ht
  refine ⟨sc', hmk, h1, h2, ?_⟩
  intro j x hx
  by_cases hps : x.parent = some s
  · obtain ⟨it, h1, _, h3, _⟩ := h6 j x hx hps
    exact ⟨it, h1, h3, fun h => absurd hps h⟩
  · have hpt : x.parent ≠ some t := by
      intro h
      have : j ∈ childItems sc t := (mem_childItems_of_getElem? sc t j x hx).2 h
      rw [hempty] at this
      cases this
    exact ⟨x, h5 j x hx hps hpt, rfl, fun _ => rfl⟩

/-- C9: en passant is inferred exactly for diagonal pawn moves onto an empty square. For a
move from an occupied square `s` onto an empty square `t` whose first source item is
`piece`, let `c = capturedSquare true piece.piece piece.side s t`, a function of the
mover's piece type, its side and the two squares only. Then `makeMove` captures from `c`:
when `c` is a board square it returns the board in which the move is carried out, the
children of `c` are hidden and detached and nothing else changes, and otherwise it has no
result. A mover that is not a pawn has `c = t` and captures nothing. For a pawn making a
mobility-legal move (White `t - s` in `{-8, -16, -7, -9}`, Black `t - s` in
`{8, 16, 7, 9}`), `c` differs from the target iff the move is diagonal, in which case `c` is
`t + 8` (White) or `t - 8` (Black); a straight single or double step has `c = t` and
captures nothing. -/
theorem en_passant_inferred_for_diagonal_pawn_moves_only (sc : Scene) (s t : Int)
    (promo : PieceType) (p : Nat) (rest : List Nat) (piece : GraphicsChessPiece)
    (hs : 0 ≤ s ∧ s < 64) (ht : 0 ≤ t ∧ t < 64)
    (hsrc : childItems sc s = p :: rest) (hp : sc[p]? = some piece)
    (hempty : childItems sc t = []) :
    ((0 ≤ capturedSquare true piece.piece piece.side s t ∧
        capturedSquare true piece.piece piece.side s t < 64) →
      ∃ sc', makeMove sc ⟨s, t, promo⟩ = some sc' ∧
        MovedCapturing sc sc' s t (capturedSquare true piece.piece piece.side s t)) ∧
    (¬ (0 ≤ capturedSquare true piece.piece piece.side s t ∧
        capturedSquare true piece.piece piece.side s t < 64) →
      makeMove sc ⟨s, t, promo⟩ = none) ∧
    (piece.piece ≠ PieceType.PT_Pawn →
      capturedSquare true piece.piece piece.side s t = t ∧
      ∃ sc', makeMove sc ⟨s, t, promo⟩ = some sc' ∧
        childItems sc' t = childItems sc s ∧ childItems sc' s = [] ∧
        NothingCaptured sc sc' s) ∧
    (piece.piece = PieceType.PT_Pawn → piece.side = ChessSide.White →
      (t - s = -8 ∨ t - s = -16 ∨ t - s = -7 ∨ t - s = -9) →
      (capturedSquare true piece.piece piece.side s t ≠ t ↔ (t - s = -7 ∨ t - s = -9)) ∧
      ((t - s = -7 ∨ t - s = -9) →
        capturedSquare true piece.piece piece.side s t = t + 8) ∧
      ((t - s = -8 ∨ t - s = -16) →
        capturedSquare true piece.piece piece.side s t = t ∧
        ∃ sc', makeMove sc ⟨s, t, promo⟩ = some sc' ∧
          childItems sc' t = childItems sc s ∧ childItems sc' s = [] ∧
          NothingCaptured sc sc' s)) ∧
    (piece.piece = PieceType.PT_Pawn → piece.side = ChessSide.Black →
      (t - s = 8 ∨ t - s = 16 ∨ t - s = 7 ∨ t - s = 9) →
      (capturedSquare true piece.piece piece.side s t ≠ t ↔ (t - s = 7 ∨ t - s = 9)) ∧
      ((t - s = 7 ∨ t - s = 9) →
        capturedSquare true piece.piece piece.side s t = t - 8) ∧
      ((t - s = 8 ∨ t - s = 16) →
        capturedSquare true piece.piece piece.side s t = t ∧
        ∃ sc', makeMove sc ⟨s, t, promo⟩ = some sc' ∧
          childItems sc' t = childItems sc s ∧ childItems sc' s = [] ∧
          NothingCaptured sc sc' s)) := by
  have hE : (childItems sc t).isEmpty = true := by rw [hempty]; rfl
  have hne : s ≠ t := by
    intro h
    rw [h, hempty] at hsrc
    cases hsrc
  have hnc : capturedSquare true piece.piece piece.side s t = t →
      ∃ sc', makeMove sc ⟨s, t, promo⟩ = some sc' ∧
        childItems sc' t = childItems sc s ∧ childItems sc' s = [] ∧
        NothingCaptured sc sc' s := by
    intro h
    apply makeMove_nothing_captured sc s t promo p rest piece hs ht hsrc hp hempty
    rw [hE]
    exact h
  refine ⟨?_, ?_, ?_, ?_, ?_⟩
  · intro hcap
    obtain ⟨sc', hmk, h1, h2, h3, _, h5, h6⟩ :=
      makeMove_effect sc s t promo p rest piece
        (capturedSquare true piece.piece piece.side s t) hs ht hne hsrc hp (by rw [hE]) hcap
    refine ⟨sc', hmk, h1, h2, ?_, h3, h5⟩
    intro j x hx hps
    obtain ⟨it, hit, hpar, hvis, _⟩ := h6 j x hx hps
    exact ⟨it, hit, hpar, hvis⟩
  · intro hcap
    apply makeMove_eq_none_of_capture_outside sc s t promo p rest piece hsrc hp
    rw [hE]
    exact hcap
  · intro hnp
    have hc : capturedSquare true piece.piece piece.side s t = t := by
      simp [capturedSquare, hnp]
    exact ⟨hc, hnc hc⟩
  · intro hpawn hw hd
    have hcs : capturedSquare true piece.piece piece.side s t =
        if t - s ≠ -16 ∧ t - s ≠ -8 then t + 8 else t := by
      simp [capturedSquare, hpawn, hw]
    refine ⟨?_, ?_, ?_⟩
    · rw [hcs]
      split_ifs <;> omega
    · intro hdiag
      rw [hcs, if_pos (by omega)]
    · intro hstraight
      have hc : capturedSquare true piece.piece piece.side s t = t := by
        rw [hcs, if_neg (by omega)]
      exact ⟨hc, hnc hc⟩
  · intro hpawn hb hd
    have hcs : capturedSquare true piece.piece piece.side s t =
        if t - s ≠ 16 ∧ t - s ≠ 8 then t - 8 else t := by
      simp [capturedSquare, hpawn, hb]
    refine ⟨?_, ?_, ?_⟩
    · rw [hcs]
      split_ifs <;> omega
    · intro hdiag
      rw [hcs, if_pos (by omega)]
    · intro hstraight
      have hc : capturedSquare true piece.piece piece.side s t = t := by
        rw [hcs, if_neg (by omega)]
      exact ⟨hc, hnc hc⟩

/-- The C9 theorem at a diagonal move: the Black pawn on d4 (35) moves to the empty c3
(42); the captured square is c4 (34), where the White pawn stands, and the call returns
the board with that pawn hidden and detached. -/
theorem en_passant_inferred_for_diagonal_pawn_moves_only_witness :
    childItems blackEnPassantPosition 35 = [0] ∧ childItems blackEnPassantPosition 42 = [] ∧
    childItems blackEnPassantPosition 34 = [1] ∧
    capturedSquare true blackEnPassantPawn.piece blackEnPassantPawn.side 35 42 = 34 ∧
    (∃ sc', makeMove blackEnPassantPosition ⟨35, 42, PieceType.PT_None⟩ = some sc' ∧
      MovedCapturing blackEnPassantPosition sc' 35 42
        (capturedSquare true blackEnPassantPawn.piece blackEnPassantPawn.side 35 42)) ∧
    (((0 ≤ capturedSquare true blackEnPassantPawn.piece blackEnPassantPawn.side 35 42 ∧
        capturedSquare true blackEnPassantPawn.piece blackEnPassantPawn.side 35 42 < 64) →
      ∃ sc', makeMove blackEnPassantPosition ⟨35, 42, PieceType.PT_None⟩ = some sc' ∧
        MovedCapturing blackEnPassantPosition sc' 35 42
          (capturedSquare true blackEnPassantPawn.piece blackEnPassantPawn.side 35 42)) ∧
    (¬ (0 ≤ capturedSquare true blackEnPassantPawn.piece blackEnPassantPawn.side 35 42 ∧
        capturedSquare true blackEnPassantPawn.piece blackEnPassantPawn.side 35 42 < 64) →
      makeMove blackEnPassantPosition ⟨35, 42, PieceType.PT_None⟩ = none) ∧
    (blackEnPassantPawn.piece ≠ PieceType.PT_Pawn →
      capturedSquare true blackEnPassantPawn.piece blackEnPassantPawn.side 35 42 = 42 ∧
      ∃ sc', makeMove blackEnPassantPosition ⟨35, 42, PieceType.PT_None⟩ = some sc' ∧
          childItems sc' 42 = childItems blackEnPassantPosition 35 ∧ childItems sc' 35 = [] ∧
          NothingCaptured blackEnPassantPosition sc' 35) ∧
    (blackEnPassantPawn.piece = PieceType.PT_Pawn →
      blackEnPassantPawn.side = ChessSide.White →
      ((42 : Int) - 35 = -8 ∨ (42 : Int) - 35 = -16 ∨ (42 : Int) - 35 = -7 ∨
        (42 : Int) - 35 = -9) →
      (capturedSquare true blackEnPassantPawn.piece blackEnPassantPawn.side 35 42 ≠ 42 ↔
        ((42 : Int) - 35 = -7 ∨ (42 : Int) - 35 = -9)) ∧
      (((42 : Int) - 35 = -7 ∨ (42 : Int) - 35 = -9) →
        capturedSquare true blackEnPassantPawn.piece blackEnPassantPawn.side 35 42 = 42 + 8) ∧
      (((42 : Int) - 35 = -8 ∨ (42 : Int) - 35 = -16) →
        capturedSquare true blackEnPassantPawn.piece blackEnPassantPawn.side 35 42 = 42 ∧
        ∃ sc', makeMove blackEnPassantPosition ⟨35, 42, PieceType.PT_None⟩ = some sc' ∧
          childItems sc' 42 = childItems blackEnPassantPosition 35 ∧ childItems sc' 35 = [] ∧
          NothingCaptured blackEnPassantPosition sc' 35)) ∧
    (blackEnPassantPawn.piece = PieceType.PT_Pawn →
      blackEnPassantPawn.side = ChessSide.Black →
      ((42 : Int) - 35 = 8 ∨ (42 : Int) - 35 = 16 ∨ (42 : Int) - 35 = 7 ∨
        (42 : Int) - 35 = 9) →
      (capturedSquare true blackEnPassantPawn.piece blackEnPassantPawn.side 35 42 ≠ 42 ↔
        ((42 : Int) - 35 = 7 ∨ (42 : Int) - 35 = 9)) ∧
      (((42 : Int) - 35 = 7 ∨ (42 : Int) - 35 = 9) →
        capturedSquare true blackEnPassantPawn.piece blackEnPassantPawn.side 35 42 = 42 - 8) ∧
      (((42 : Int) - 35 = 8 ∨ (42 : Int) - 35 = 16) →
        capturedSquare true blackEnPassantPawn.piece blackEnPassantPawn.side 35 42 = 42 ∧
        ∃ sc', makeMove blackEnPassantPosition ⟨35, 42, PieceType.PT_None⟩ = some sc' ∧
          childItems sc' 42 = childItems blackEnPassantPosition 35 ∧ childItems sc' 35 = [] ∧
          NothingCaptured blackEnPassantPosition sc' 35))) :=
  ⟨by decide, by decide, by decide, by decide,
    (en_passant_inferred_for_diagonal_pawn_moves_only blackEnPassantPosition 35 42
      PieceType.PT_None 0 [] blackEnPassantPawn
      (by decide) (by decide) (by decide) (by decide) (by decide)).1 (by decide),
    en_passant_inferred_for_diagonal_pawn_moves_only blackEnPassantPosition 35 42
      PieceType.PT_None 0 [] blackEnPassantPawn
      (by decide) (by decide) (by decide) (by decide) (by decide)⟩

/-- C7 (as stated) fails: with f1 and g1 empty, `makeMove` of the White king from e1 (60) to
g1 (62) puts the king on g1 but leaves the h1 rook on h1 (63); f1 (61) stays empty. -/
theorem makeMove_does_not_move_the_rook :
    piecesOn castlingLayout 60 = [(ChessSide.White, PieceType.PT_King)] ∧
    piecesOn castlingLayout 63 = [(ChessSide.White, PieceType.PT_Rook)] ∧
    piecesOn castlingLayout 61 = [] ∧ piecesOn castlingLayout 62 = [] ∧
    ∃ sc, makeMove castlingLayout ⟨60, 62, PieceType.PT_None⟩ = some sc ∧
      piecesOn sc 62 = [(ChessSide.White, PieceType.PT_King)] ∧
      piecesOn sc 61 = [] ∧
      piecesOn sc 61 ≠ [(ChessSide.White, PieceType.PT_Rook)] ∧
      piecesOn sc 63 = [(ChessSide.White, PieceType.PT_Rook)] := by
  refine ⟨by decide, by decide, by decide, by decide, _, rfl, ?_, ?_, ?_, ?_⟩ <;> decide

/-- C7 (amended): castling is not carried out by `makeMove`, whose castling block is
compiled out. From the start layout with the squares between king and rooks empty, a king
move of two files relocates the king only: e1 to g1 and e1 to c1 leave the White king on
g1 or c1 while the rooks stay on h1 (63) and a1 (56) and f1 (61), d1 (59) stay empty;
likewise e8 to g8 and e8 to c8 leave the Black king on g8 or c8 with the rooks still on
h8 (7) and a8 (0) and f8 (5), d8 (3) empty. -/
theorem makeMove_king_two_files_moves_king_only :
    (∃ sc, makeMove castlingLayout ⟨60, 62, PieceType.PT_None⟩ = some sc ∧
      piecesOn sc 62 = [(ChessSide.White, PieceType.PT_King)] ∧ piecesOn sc 60 = [] ∧
      piecesOn sc 63 = [(ChessSide.White, PieceType.PT_Rook)] ∧ piecesOn sc 61 = []) ∧
    (∃ sc, makeMove castlingLayout ⟨60, 58, PieceType.PT_None⟩ = some sc ∧
      piecesOn sc 58 = [(ChessSide.White, PieceType.PT_King)] ∧ piecesOn sc 60 = [] ∧
      piecesOn sc 56 = [(ChessSide.White, PieceType.PT_Rook)] ∧ piecesOn sc 59 = []) ∧
    (∃ sc, makeMove castlingLayout ⟨4, 6, PieceType.PT_None⟩ = some sc ∧
      piecesOn sc 6 = [(ChessSide.Black, PieceType.PT_King)] ∧ piecesOn sc 4 = [] ∧
      piecesOn sc 7 = [(ChessSide.Black, PieceType.PT_Rook)] ∧ piecesOn sc 5 = []) ∧
    (∃ sc, makeMove castlingLayout ⟨4, 2, PieceType.PT_None⟩ = some sc ∧
      piecesOn sc 2 = [(ChessSide.Black, PieceType.PT_King)] ∧ piecesOn sc 4 = [] ∧
      piecesOn sc 0 = [(ChessSide.Black, PieceType.PT_Rook)] ∧ piecesOn sc 3 = []) := by
  refine ⟨⟨_, rfl, ?_, ?_, ?_, ?_⟩, ⟨_, rfl, ?_, ?_, ?_, ?_⟩, ⟨_, rfl, ?_, ?_, ?_, ?_⟩,
    ⟨_, rfl, ?_, ?_, ?_, ?_⟩⟩ <;> decide

end Cutechess
